import Mathlib

/-!
Verification development for the news-feed-system repository.

Shallow embedding of the post store (internal/repository/post_repository.go),
the post service (internal/service/post_service.go), the aggregator
(aggregatorService, processCategoryNews / processSourceNews) and the
scheduler (schedulerService).  Machine integers are modelled as Int or Nat
(all counters in scope only ever increase from zero, so no overflow is
reachable in the statements below), timestamps as Nat, fallible calls as
Except, and the Redis cache as a typed record.
-/

namespace NewsFeed

/-- Timestamps (time.Time) are modelled as natural numbers. -/
abbrev Time := Nat

/-- model.Post (internal/model/post.go). -/
structure Post where
  id          : Int
  title       : String
  description : Option String
  content     : Option String
  url         : String
  source      : String
  category    : Option String
  imageUrl    : Option String
  publishedAt : Option Time
  createdAt   : Time
  updatedAt   : Time
  deriving Repr, DecidableEq

/-- model.CreatePostParams (internal/model/post.go). -/
structure CreatePostParams where
  title       : String
  description : Option String
  content     : Option String
  url         : String
  source      : String
  category    : Option String
  imageUrl    : Option String
  publishedAt : Option Time
  deriving Repr, DecidableEq

/-- model.UpdatePostParams (internal/model/post.go): title is a plain
string, the optional fields are pointers. -/
structure UpdatePostParams where
  title       : String
  description : Option String
  content     : Option String
  category    : Option String
  imageUrl    : Option String
  deriving Repr, DecidableEq

/-- model.PostListParams (internal/model/post.go). -/
structure PostListParams where
  page     : Int
  limit    : Int
  category : Option String
  source   : Option String
  search   : Option String
  deriving Repr, DecidableEq

/-- model.PaginationMeta (internal/model/post.go). -/
structure PaginationMeta where
  page       : Int
  limit      : Int
  total      : Int
  totalPages : Int
  hasNext    : Bool
  hasPrev    : Bool
  deriving Repr, DecidableEq

/-- model.PostListResponse (internal/model/post.go). -/
structure PostListResponse where
  posts      : List Post
  pagination : PaginationMeta
  deriving Repr, DecidableEq

/-- model.CalculatePagination (internal/model/post.go).  Go integer
division truncates toward zero; every value reaching it in the claims is
nonnegative, where Int division in Lean agrees. -/
def CalculatePagination (page limit total : Int) : PaginationMeta :=
  let tp := ((total + limit) - 1) / limit
  let totalPages := if tp = 0 then 1 else tp
  { page       := page
    limit      := limit
    total      := total
    totalPages := totalPages
    hasNext    := page < totalPages
    hasPrev    := page > 1 }

/-- Typed model of the Redis cache as used by postRepository: keys
post:id:N, posts:list:P:L and posts:count. -/
structure Cache where
  postById : List (Int × Post)
  lists    : List ((Int × Int) × List Post)
  countVal : Option Int
  deriving Repr, DecidableEq

/-- Empty cache. -/
def Cache.empty : Cache := { postById := [], lists := [], countVal := none }

/-- Store state: the posts table (in insertion order), the next serial id
and the cache. -/
structure RepoState where
  posts  : List Post
  nextId : Int
  cache  : Cache
  deriving Repr, DecidableEq

/-- Store/repository errors: a row-absent read (pgx.ErrNoRows) or an
infrastructure failure carrying a message. -/
inductive RepoErr where
  | noRows
  | infra (msg : String)
  deriving Repr, DecidableEq

/-- Association-list insert that replaces an existing binding, modelling
assignment into a Go map. -/
def insertAssoc {κ β : Type} [BEq κ] (k : κ) (v : β) : List (κ × β) → List (κ × β)
  | [] => [(k, v)]
  | (k2, v2) :: rest => if k == k2 then (k, v) :: rest else (k2, v2) :: insertAssoc k v rest

/-- Association-list lookup. -/
def lookupAssoc {κ β : Type} [BEq κ] (k : κ) : List (κ × β) → Option β
  | [] => none
  | (k2, v2) :: rest => if k == k2 then some v2 else lookupAssoc k rest

/-- Association-list delete. -/
def deleteAssoc {κ β : Type} [BEq κ] (k : κ) : List (κ × β) → List (κ × β)
  | [] => []
  | (k2, v2) :: rest => if k == k2 then deleteAssoc k rest else (k2, v2) :: deleteAssoc k rest

namespace PostRepository

/-- postRepository.invalidateListCaches: deletes all posts:list:* keys and
posts:count. -/
def invalidateListCaches (c : Cache) : Cache :=
  { c with lists := [], countVal := none }

/-- postRepository.invalidatePostCaches: deletes post:id:N. -/
def invalidatePostCaches (id : Int) (c : Cache) : Cache :=
  { c with postById := deleteAssoc id c.postById }

/-- The row INSERT ... RETURNING of postRepository.CreatePost.  The posts
table enforces UNIQUE(url); a colliding insert surfaces as an
infrastructure error from the database driver. -/
def CreatePost (σ : RepoState) (p : CreatePostParams) (now : Time) :
    Except RepoErr Post × RepoState :=
  if σ.posts.any (fun q => q.url == p.url) then
    (.error (.infra "unique violation on url"), σ)
  else
    let post : Post :=
      { id := σ.nextId
        title := p.title
        description := p.description
        content := p.content
        url := p.url
        source := p.source
        category := p.category
        imageUrl := p.imageUrl
        publishedAt := p.publishedAt
        createdAt := now
        updatedAt := now }
    (.ok post,
      { posts := σ.posts ++ [post]
        nextId := σ.nextId + 1
        cache := invalidateListCaches σ.cache })

/-- postRepository.GetPostByURL: direct store read, no cache; absent row
is pgx.ErrNoRows. -/
def GetPostByURL (posts : List Post) (url : String) : Except RepoErr Post :=
  match posts.find? (fun p => p.url == url) with
  | some p => .ok p
  | none => .error .noRows

/-- postRepository.GetPostByID: read-through cache on key post:id:N. -/
def GetPostByID (σ : RepoState) (id : Int) : Except RepoErr Post × RepoState :=
  match lookupAssoc id σ.cache.postById with
  | some p => (.ok p, σ)
  | none =>
    match σ.posts.find? (fun p => p.id == id) with
    | none => (.error .noRows, σ)
    | some p =>
      (.ok p, { σ with cache := { σ.cache with postById := insertAssoc id p σ.cache.postById } })

/-- The field patch applied by postRepository.UpdatePost to a matching
row: title, description, content, category, image_url and updated_at are
set, everything else is kept. -/
def applyUpdate (params : UpdatePostParams) (now : Time) (old : Post) : Post :=
  { old with
    title := params.title
    description := params.description
    content := params.content
    category := params.category
    imageUrl := params.imageUrl
    updatedAt := now }

/-- postRepository.UpdatePost: UPDATE ... WHERE id = $1 RETURNING ...; a
missing row surfaces as pgx.ErrNoRows; on success the id cache and the
list caches are invalidated. -/
def UpdatePost (σ : RepoState) (id : Int) (params : UpdatePostParams) (now : Time) :
    Except RepoErr Post × RepoState :=
  match σ.posts.find? (fun p => p.id == id) with
  | none => (.error .noRows, σ)
  | some old =>
    let post := applyUpdate params now old
    (.ok post,
      { σ with
        posts := σ.posts.map (fun p => if p.id == id then applyUpdate params now p else p)
        cache := invalidateListCaches (invalidatePostCaches id σ.cache) })

/-- postRepository.DeletePost: DELETE WHERE id = $1; zero rows affected is
reported as a not-found infrastructure-level error string. -/
def DeletePost (σ : RepoState) (id : Int) : Except RepoErr Unit × RepoState :=
  if σ.posts.any (fun p => p.id == id) then
    (.ok (),
      { σ with
        posts := σ.posts.filter (fun p => !(p.id == id))
        cache := invalidateListCaches (invalidatePostCaches id σ.cache) })
  else
    (.error (.infra "post not found"), σ)

end PostRepository

/-- Checks that hay starts with needle (character lists). -/
def leadMatch : List Char → List Char → Bool
  | [], _ => true
  | _ :: _, [] => false
  | p :: ps, c :: cs => p == c && leadMatch ps cs

/-- Checks that needle occurs contiguously inside hay (character lists). -/
def containsSub (needle : List Char) : List Char → Bool
  | [] => leadMatch needle []
  | c :: cs => leadMatch needle (c :: cs) || containsSub needle cs

/-- Tests a predicate on every suffix of a character list (the list
itself included, the empty suffix included). -/
def suffixAny (f : List Char → Bool) : List Char → Bool
  | [] => f []
  | c :: cs => f (c :: cs) || suffixAny f cs

/-- PostgreSQL LIKE pattern matching over character lists: the percent
character matches any run of characters, the underscore matches one
character, and a backslash (the default escape character, active even
without an ESCAPE clause) makes the following pattern character literal.
The patterns in scope splice raw user input between two percent signs,
so a lone trailing backslash never occurs (PostgreSQL rejects such a
pattern; the model lets it match nothing). -/
def likeMatch : List Char → List Char → Bool
  | [] => fun text => text.isEmpty
  | p :: ps =>
    if p = '\\' then
      match ps with
      | [] => fun _ => false
      | e :: ps2 => fun text =>
        match text with
        | [] => false
        | c :: cs => e == c && likeMatch ps2 cs
    else if p = '%' then suffixAny (likeMatch ps)
    else fun text =>
      match text with
      | [] => false
      | c :: cs => if p = '_' then likeMatch ps cs else p == c && likeMatch ps cs

/-- ASCII lowering of one character (PostgreSQL lower() in the default C
locale over the ASCII range used here). -/
def lowerChar (c : Char) : Char :=
  if 65 ≤ c.toNat ∧ c.toNat ≤ 90 then Char.ofNat (c.toNat + 32) else c

/-- Lowered character list of a string. -/
def lowerStr (s : String) : List Char :=
  s.data.map lowerChar

/-- The expression `text ILIKE '%' || q || '%'`: ILIKE lowers both sides
and then LIKE-matches the concatenated pattern. -/
def ilikeContains (q text : String) : Bool :=
  likeMatch ('%' :: (lowerStr q ++ ['%'])) (lowerStr text)

/-- The WHERE clause of postRepository.SearchPosts:
title ILIKE percent-q-percent OR description ILIKE percent-q-percent
(a NULL description never matches). -/
def searchPred (q : String) (p : Post) : Bool :=
  ilikeContains q p.title ||
    (match p.description with
     | some d => ilikeContains q d
     | none => false)

/-- Wildcard-free character lists: no percent, no underscore and no
backslash (the default LIKE escape character). -/
def noWild (l : List Char) : Bool :=
  l.all (fun c => !(c == '%' || c == '_' || c == '\\'))

/-- Case-insensitive substring containment, written from the words of the
spec (substring match, case-insensitive, wildcards not interpreted); used
only to compare the specified search semantics with the embedded ILIKE
query. -/
def specSearchPred (q : String) (p : Post) : Bool :=
  containsSub (lowerStr q) (lowerStr p.title) ||
    (match p.description with
     | some d => containsSub (lowerStr q) (lowerStr d)
     | none => false)

/-- Row order of ORDER BY published_at DESC: under DESC PostgreSQL places
NULLs first; rows with later published_at come earlier. -/
def publishedGE (a b : Option Time) : Bool :=
  match a, b with
  | none, _ => true
  | some _, none => false
  | some x, some y => y ≤ x

/-- Insertion step of a stable descending sort on published_at. -/
def insertDesc (p : Post) : List Post → List Post
  | [] => [p]
  | q :: qs => if publishedGE p.publishedAt q.publishedAt then p :: q :: qs else q :: insertDesc p qs

/-- ORDER BY published_at DESC as a stable insertion sort. -/
def sortDesc (l : List Post) : List Post :=
  l.foldr insertDesc []

/-- SELECT ... WHERE pred ORDER BY published_at DESC LIMIT lim OFFSET off.
Negative limits and offsets are never produced by the callers in scope. -/
def sqlPage (pred : Post → Bool) (lim off : Int) (posts : List Post) : List Post :=
  ((sortDesc (posts.filter pred)).drop off.toNat).take lim.toNat

namespace PostRepository

/-- postRepository.SearchPosts (no cache interaction). -/
def SearchPosts (posts : List Post) (q : String) (lim off : Int) : List Post :=
  sqlPage (searchPred q) lim off posts

/-- postRepository.ListPostsByCategory (no cache interaction). -/
def ListPostsByCategory (posts : List Post) (cat : String) (lim off : Int) : List Post :=
  sqlPage (fun p => p.category == some cat) lim off posts

/-- postRepository.ListPostsBySource (no cache interaction). -/
def ListPostsBySource (posts : List Post) (src : String) (lim off : Int) : List Post :=
  sqlPage (fun p => p.source == src) lim off posts

/-- The guard pattern of the ListPosts switch: a string pointer that is
non-nil and non-empty. -/
def present (o : Option String) : Bool :=
  match o with
  | some s => s != ""
  | none => false

/-- postRepository.ListPosts: routes on the params exactly as the switch
in the source does; only the unfiltered default branch reads the cache at
key posts:list:page:limit and, on a miss, stores the freshly read page
there. -/
def ListPosts (σ : RepoState) (params : PostListParams) : List Post × RepoState :=
  let lim := params.limit
  let off := (params.page - 1) * params.limit
  if present params.search then
    (SearchPosts σ.posts (params.search.getD "") lim off, σ)
  else if present params.category then
    (ListPostsByCategory σ.posts (params.category.getD "") lim off, σ)
  else if present params.source then
    (ListPostsBySource σ.posts (params.source.getD "") lim off, σ)
  else
    match lookupAssoc (params.page, params.limit) σ.cache.lists with
    | some cached => (cached, σ)
    | none =>
      let posts := sqlPage (fun _ => true) lim off σ.posts
      (posts,
        { σ with
          cache := { σ.cache with
            lists := insertAssoc (params.page, params.limit) posts σ.cache.lists } })

/-- postRepository.CountPosts: cached under posts:count. -/
def CountPosts (σ : RepoState) : Int × RepoState :=
  match σ.cache.countVal with
  | some n => (n, σ)
  | none =>
    let n : Int := σ.posts.length
    (n, { σ with cache := { σ.cache with countVal := some n } })

/-- postRepository.CountPostsByCategory: not cached. -/
def CountPostsByCategory (σ : RepoState) (cat : String) : Int × RepoState :=
  ((σ.posts.filter (fun p => p.category == some cat)).length, σ)

end PostRepository

/-- Service-level errors of postService (internal/service/post_service.go):
the three sentinel errors plus the wrapped repository failures. -/
inductive ServiceErr where
  | postExists
  | postIDInvalid
  | postNotFound
  | checkFailed (msg : String)
  | createFailed (msg : String)
  | getFailed (msg : String)
  | updateFailed (msg : String)
  | deleteFailed (msg : String)
  deriving Repr, DecidableEq

/-- Rendering of a repository error when a service wraps it. -/
def RepoErr.msg : RepoErr → String
  | .noRows => "no rows in result set"
  | .infra m => m

/-- A record of which repository calls a service operation performed; an
empty trace means the operation touched neither the store nor the cache. -/
inductive RepoOp where
  | getByUrl (url : String)
  | createRow
  | getById (id : Int)
  | updateRow (id : Int)
  | deleteRow (id : Int)
  | listRows
  | countRows
  | countRowsByCategory (cat : String)
  deriving Repr, DecidableEq

namespace PostService

/-- The body of postService.PostExists as a function of the result of the
repository read it performs: only pgx.ErrNoRows is mapped to
(false, nil); every other outcome, including an infrastructure error,
falls through to (true, nil). -/
def postExistsLogic (r : Except RepoErr Post) : Bool × Option String :=
  match r with
  | .error .noRows => (false, none)
  | .error (.infra _) => (true, none)
  | .ok _ => (true, none)

/-- postService.PostExists over the store state. -/
def PostExists (σ : RepoState) (url : String) : Bool × Option String :=
  postExistsLogic (PostRepository.GetPostByURL σ.posts url)

/-- postService.CreatePost as a function of the duplicate-check read
result (the rest of the body runs against the store): check existence,
fail with ErrPostExists on a hit, otherwise insert. -/
def CreatePostGiven (check : Except RepoErr Post) (σ : RepoState)
    (p : CreatePostParams) (now : Time) :
    Except ServiceErr Post × RepoState × List RepoOp :=
  match postExistsLogic check with
  | (_, some e) => (.error (.checkFailed e), σ, [.getByUrl p.url])
  | (true, none) => (.error .postExists, σ, [.getByUrl p.url])
  | (false, none) =>
    match PostRepository.CreatePost σ p now with
    | (.ok post, σ2) => (.ok post, σ2, [.getByUrl p.url, .createRow])
    | (.error e, σ2) => (.error (.createFailed e.msg), σ2, [.getByUrl p.url, .createRow])

/-- postService.CreatePost. -/
def CreatePost (σ : RepoState) (p : CreatePostParams) (now : Time) :
    Except ServiceErr Post × RepoState × List RepoOp :=
  CreatePostGiven (PostRepository.GetPostByURL σ.posts p.url) σ p now

/-- postService.GetPostByID: rejects non-positive ids before any
repository access; maps pgx.ErrNoRows to ErrPostNotFound. -/
def GetPostByID (σ : RepoState) (id : Int) :
    Except ServiceErr Post × RepoState × List RepoOp :=
  if id ≤ 0 then (.error .postIDInvalid, σ, [])
  else
    match PostRepository.GetPostByID σ id with
    | (.ok post, σ2) => (.ok post, σ2, [.getById id])
    | (.error .noRows, σ2) => (.error .postNotFound, σ2, [.getById id])
    | (.error e, σ2) => (.error (.getFailed e.msg), σ2, [.getById id])

/-- postService.UpdatePost: rejects non-positive ids before any
repository access; then checks existence via GetPostByID and updates. -/
def UpdatePost (σ : RepoState) (id : Int) (params : UpdatePostParams) (now : Time) :
    Except ServiceErr Post × RepoState × List RepoOp :=
  if id ≤ 0 then (.error .postIDInvalid, σ, [])
  else
    match PostRepository.GetPostByID σ id with
    | (.error .noRows, σ2) => (.error .postNotFound, σ2, [.getById id])
    | (.error e, σ2) => (.error (.checkFailed e.msg), σ2, [.getById id])
    | (.ok _, σ2) =>
      match PostRepository.UpdatePost σ2 id params now with
      | (.ok post, σ3) => (.ok post, σ3, [.getById id, .updateRow id])
      | (.error e, σ3) => (.error (.updateFailed e.msg), σ3, [.getById id, .updateRow id])

/-- postService.DeletePost: rejects non-positive ids before any
repository access; then checks existence via GetPostByID and deletes. -/
def DeletePost (σ : RepoState) (id : Int) :
    Except ServiceErr Unit × RepoState × List RepoOp :=
  if id ≤ 0 then (.error .postIDInvalid, σ, [])
  else
    match PostRepository.GetPostByID σ id with
    | (.error .noRows, σ2) => (.error .postNotFound, σ2, [.getById id])
    | (.error e, σ2) => (.error (.checkFailed e.msg), σ2, [.getById id])
    | (.ok _, σ2) =>
      match PostRepository.DeletePost σ2 id with
      | (.ok _, σ3) => (.ok (), σ3, [.getById id, .deleteRow id])
      | (.error e, σ3) => (.error (.deleteFailed e.msg), σ3, [.getById id, .deleteRow id])

/-- postService.ListPosts: clamps page to at least 1 and limit into
[1, 100] (defaulting limit to 20), lists via the repository, then counts
by category when a category filter is present and globally otherwise. -/
def ListPosts (σ : RepoState) (params : PostListParams) :
    PostListResponse × RepoState :=
  let page := if params.page ≤ 0 then 1 else params.page
  let limit0 := if params.limit ≤ 0 then 20 else params.limit
  let limit := if limit0 > 100 then 100 else limit0
  let params2 := { params with page := page, limit := limit }
  let r := PostRepository.ListPosts σ params2
  let c :=
    match params2.category with
    | some c0 =>
      if c0 != "" then PostRepository.CountPostsByCategory r.2 c0
      else PostRepository.CountPosts r.2
    | none => PostRepository.CountPosts r.2
  ({ posts := r.1, pagination := CalculatePagination page limit c.1 }, c.2)

end PostService

/-- The nested source of model.NewsAPIArticleParams. -/
structure NewsSource where
  id   : Option String
  name : String
  deriving Repr, DecidableEq

/-- model.NewsAPIArticleParams (internal/model/news.go). -/
structure Article where
  source      : NewsSource
  author      : Option String
  title       : String
  description : Option String
  url         : String
  urlToImage  : Option String
  publishedAt : String
  content     : Option String
  deriving Repr, DecidableEq

/-- The outcome of one postService.CreatePostFromNewsAPI call as observed
by the aggregator: a non-nil post with nil error, a nil post with nil
error, the ErrPostExists sentinel, or any other error. -/
inductive CreateResult where
  | ok (p : Post)
  | okNil
  | dupErr
  | otherErr (msg : String)
  deriving Repr, DecidableEq

/-- Tests the created outcome (non-nil post, nil error). -/
def CreateResult.isCreated : CreateResult → Bool
  | .ok _ => true
  | _ => false

/-- Tests the duplicate outcome (ErrPostExists). -/
def CreateResult.isDup : CreateResult → Bool
  | .dupErr => true
  | _ => false

/-- Tests the error outcome (non-nil error other than ErrPostExists). -/
def CreateResult.isOther : CreateResult → Bool
  | .otherErr _ => true
  | _ => false

/-- model.BaseStats (internal/model/aggregator.go). -/
structure BaseStats where
  fetched    : Nat := 0
  created    : Nat := 0
  duplicates : Nat := 0
  errors     : Nat := 0
  deriving Repr, DecidableEq

/-- model.AggregationResponse (internal/model/aggregator.go); the
wall-clock duration field is omitted (real time is not modelled), the two
maps are association lists. -/
structure AggregationResponse where
  totalFetched    : Nat := 0
  totalCreated    : Nat := 0
  totalDuplicates : Nat := 0
  totalErrors     : Nat := 0
  categories      : List (String × BaseStats) := []
  sources         : List (String × BaseStats) := []
  errors          : List String := []
  deriving Repr, DecidableEq

/-- model.NewsAPIArticleParams.ToPost (internal/model/news.go): the
article-to-post projection.  RFC-3339 parsing of the publishedAt string is
a parameter (none models a parse failure, which Go turns into the zero
time); a zero parse result is dropped exactly as the IsZero guard does.
The category field is not populated. -/
def Article.ToPost (parse : String → Option Time) (a : Article) : CreatePostParams :=
  { title := a.title
    description := a.description
    content := a.content
    url := a.url
    source := a.source.name
    category := none
    imageUrl := a.urlToImage
    publishedAt :=
      match parse a.publishedAt with
      | none => none
      | some t => if t = 0 then none else some t }

namespace PostService

/-- Modelled from the spec: the body of postService.CreatePostFromNewsAPI
is missing from src (only its interface declaration, its mocks and its
tests are present).  Spec section 3 specifies the projection through
ToPost with no article filtering, and the tests pin the behaviour: an
existing URL (or a masked duplicate-check failure) yields (nil, nil)
without an insert, a create failure yields a wrapped error, success
yields the created post. -/
def CreatePostFromNewsAPI (σ : RepoState) (parse : String → Option Time)
    (a : Article) (now : Time) :
    (Option Post × Option ServiceErr) × RepoState × List RepoOp :=
  let params := Article.ToPost parse a
  match PostExists σ params.url with
  | (true, _) => ((none, none), σ, [.getByUrl params.url])
  | (false, _) =>
    match PostRepository.CreatePost σ params now with
    | (.ok post, σ2) => ((some post, none), σ2, [.getByUrl params.url, .createRow])
    | (.error e, σ2) =>
      ((none, some (.createFailed e.msg)), σ2, [.getByUrl params.url, .createRow])

end PostService

namespace AggregatorService

/-- The per-article classification step of
aggregatorService.processCategoryNews: articles with an empty source name
are skipped entirely; otherwise CreatePostFromNewsAPI is invoked (the
article is appended to the attempted list) and the outcome is counted.
The duplicate check uses the typed ErrPostExists identity. -/
def catStep (createFn : Article → CreateResult) (acc : BaseStats × List Article)
    (a : Article) : BaseStats × List Article :=
  if a.source.name != "" then
    let att := acc.2 ++ [a]
    match createFn a with
    | .ok _ => ({ acc.1 with created := acc.1.created + 1 }, att)
    | .okNil => (acc.1, att)
    | .dupErr => ({ acc.1 with duplicates := acc.1.duplicates + 1 }, att)
    | .otherErr _ => ({ acc.1 with errors := acc.1.errors + 1 }, att)
  else acc

/-- aggregatorService.processCategoryNews, parametrised by the upstream
fetch result for the category and the per-article create outcome; returns
the category stats together with the list of articles for which a create
was attempted. -/
def processCategoryNews (fetchRes : Except String (List Article))
    (createFn : Article → CreateResult) : BaseStats × List Article :=
  match fetchRes with
  | .error _ => ({ errors := 1 }, [])
  | .ok arts => arts.foldl (catStep createFn) ({ fetched := arts.length }, [])

/-- The mutex-protected merge section of one category unit. -/
def catMerge (fetchFn : String → Except String (List Article))
    (createFn : Article → CreateResult) (acc : AggregationResponse)
    (cat : String) : AggregationResponse :=
  let stats := (processCategoryNews (fetchFn cat) createFn).1
  { acc with
    totalFetched := acc.totalFetched + stats.fetched
    totalCreated := acc.totalCreated + stats.created
    totalDuplicates := acc.totalDuplicates + stats.duplicates
    totalErrors := acc.totalErrors + stats.errors
    categories := insertAssoc cat stats acc.categories }

/-- aggregatorService.aggregateByCategories: one unit per category; the
merges performed under the shared mutex commute (they are additions and a
keyed map write), so the arbitrary goroutine completion order is modelled
by folding the units in list order. -/
def aggregateByCategories (fetchFn : String → Except String (List Article))
    (createFn : Article → CreateResult) (cats : List String) : AggregationResponse :=
  cats.foldl (catMerge fetchFn createFn) {}

/-- Map update guarded by key membership, as in the
`if stats, ok := sourceStats[name]; ok` pattern of processSourceNews. -/
def updateIfMember (k : String) (f : BaseStats → BaseStats)
    (m : List (String × BaseStats)) : List (String × BaseStats) :=
  match lookupAssoc k m with
  | some v => insertAssoc k (f v) m
  | none => m

/-- Accumulator of the processSourceNews article loop. -/
structure SrcAcc where
  created    : Nat := 0
  duplicates : Nat := 0
  errors     : Nat := 0
  stats      : List (String × BaseStats) := []
  attempted  : List Article := []
  deriving Repr, DecidableEq

/-- The per-article step of aggregatorService.processSourceNews: a create
is attempted for every article (there is no empty-source-name guard in
this path); duplicates are recognised by the error string comparison,
which equals the ErrPostExists message; per-source stats are updated only
when the article source name is a key of the batch map. -/
def srcStep (createFn : Article → CreateResult) (acc : SrcAcc) (a : Article) : SrcAcc :=
  let name := a.source.name
  let att := acc.attempted ++ [a]
  match createFn a with
  | .dupErr =>
    { acc with
      duplicates := acc.duplicates + 1
      stats := updateIfMember name (fun s => { s with duplicates := s.duplicates + 1 }) acc.stats
      attempted := att }
  | .otherErr _ =>
    { acc with
      errors := acc.errors + 1
      stats := updateIfMember name (fun s => { s with errors := s.errors + 1 }) acc.stats
      attempted := att }
  | .ok _ =>
    { acc with
      created := acc.created + 1
      stats := updateIfMember name
        (fun s => { s with created := s.created + 1, fetched := s.fetched + 1 }) acc.stats
      attempted := att }
  | .okNil => { acc with attempted := att }

/-- aggregatorService.processSourceNews for one batch of sources,
parametrised by the upstream fetch result and the per-article create
outcome; returns the batch response together with the list of articles
for which a create was attempted. -/
def processSourceNews (sources : List String) (fetchRes : Except String (List Article))
    (createFn : Article → CreateResult) : AggregationResponse × List Article :=
  match fetchRes with
  | .error msg =>
    ({ totalErrors := 1, errors := ["Failed to fetch news for sources: " ++ msg] }, [])
  | .ok arts =>
    let init : SrcAcc := { stats := sources.foldl (fun m s => insertAssoc s {} m) [] }
    let acc := arts.foldl (srcStep createFn) init
    ({ totalFetched := arts.length
       totalCreated := acc.created
       totalDuplicates := acc.duplicates
       totalErrors := acc.errors
       sources := acc.stats }, acc.attempted)

/-- The batching loop of aggregatorService.aggregateBySources: slices of
three sources. -/
def chunks3 : List String → List (List String)
  | [] => []
  | s :: rest => (s :: rest).take 3 :: chunks3 ((s :: rest).drop 3)
  termination_by l => l.length
  decreasing_by simp [List.length_drop]; omega

/-- The mutex-protected merge section of one source-batch unit. -/
def srcMerge (fetchFn : List String → Except String (List Article))
    (createFn : Article → CreateResult) (acc : AggregationResponse)
    (batch : List String) : AggregationResponse :=
  let r := (processSourceNews batch (fetchFn batch) createFn).1
  { acc with
    totalFetched := acc.totalFetched + r.totalFetched
    totalCreated := acc.totalCreated + r.totalCreated
    totalDuplicates := acc.totalDuplicates + r.totalDuplicates
    totalErrors := acc.totalErrors + r.totalErrors
    sources := r.sources.foldl (fun m kv => insertAssoc kv.1 kv.2 m) acc.sources
    errors := acc.errors ++ r.errors }

/-- aggregatorService.aggregateBySources: one unit per batch of three
sources; as with the category path, the lock-serialised merges commute
and are folded in batch order. -/
def aggregateBySources (fetchFn : List String → Except String (List Article))
    (createFn : Article → CreateResult) (sources : List String) : AggregationResponse :=
  (chunks3 sources).foldl (srcMerge fetchFn createFn) {}

end AggregatorService

/-- model.JobStatus (internal/model/scheduler.go); durations and
timestamps as Nat. -/
structure JobStatus where
  name           : String
  interval       : Nat
  lastRun        : Option Nat := none
  nextRun        : Option Nat := none
  runCount       : Nat := 0
  errorCount     : Nat := 0
  lastError      : String := ""
  isRunning      : Bool := false
  averageRunTime : Nat := 0
  deriving Repr, DecidableEq

namespace SchedulerService

/-- The pre-run status update of schedulerService.executeJob. -/
def executeJobBegin (st : JobStatus) : JobStatus :=
  { st with isRunning := true, runCount := st.runCount + 1 }

/-- The post-run status update of schedulerService.executeJob: start is
the instant captured before the task ran, duration the measured task
duration and now the instant of the update; integer division as in Go. -/
def executeJobFinish (st : JobStatus) (start duration now : Nat)
    (err : Option String) : JobStatus :=
  let st1 := { st with
    isRunning := false
    lastRun := some start
    nextRun := some (now + st.interval)
    averageRunTime :=
      if st.averageRunTime = 0 then duration
      else (st.averageRunTime + duration) / 2 }
  match err with
  | some m => { st1 with errorCount := st1.errorCount + 1, lastError := m }
  | none => { st1 with lastError := "" }

/-- One complete execution of a scheduled job task: the pre-run update
followed by the task and the post-run update. -/
def executeJob (st : JobStatus) (start duration now : Nat)
    (err : Option String) : JobStatus :=
  executeJobFinish (executeJobBegin st) start duration now err

/-- One registered job of the scheduler as far as Stop observes it. -/
structure SchedJob where
  name         : String
  interval     : Nat
  tickerActive : Bool
  deriving Repr, DecidableEq

/-- Scheduler state for the Stop protocol: the jobs table, the running
flag, the cancellation flag of the start context and the WaitGroup
counter of live executor tasks. -/
structure SchedState where
  jobs      : List SchedJob
  running   : Bool
  cancelled : Bool
  live      : Nat
  deriving Repr, DecidableEq

/-- The first half of schedulerService.Stop in the running case, executed
atomically under the scheduler mutex: stop every job ticker, then cancel
the start context. -/
def stopBegin (s : SchedState) : SchedState :=
  { s with
    jobs := s.jobs.map (fun j => { j with tickerActive := false })
    cancelled := true }

/-- The last action of schedulerService.Stop, after the WaitGroup wait
returned: clear the running flag. -/
def stopFinish (s : SchedState) : SchedState :=
  { s with running := false }

/-- The only transition possible while Stop holds the scheduler mutex: an
executor goroutine observes the cancelled start context, returns, and its
deferred WaitGroup Done decrements the counter.  Start, AddJob, RemoveJob
and a competing Stop all block on the mutex and cannot interleave. -/
inductive TaskExit : SchedState → SchedState → Prop
  | exit (s : SchedState) (h : s.cancelled = true) (hl : 0 < s.live) :
      TaskExit s { s with live := s.live - 1 }

/-- A complete run of schedulerService.Stop: the not-running case returns
immediately without touching the state; the running case performs the
atomic first half, then blocks until the executor tasks have drained the
WaitGroup to zero (the wait returning is exactly the live count reaching
zero), then clears the running flag. -/
inductive StopRun : SchedState → SchedState → Prop
  | notRunning (s : SchedState) (h : s.running = false) : StopRun s s
  | drain (s mid : SchedState) (h : s.running = true)
      (hchain : Relation.ReflTransGen TaskExit (stopBegin s) mid)
      (hzero : mid.live = 0) : StopRun s (stopFinish mid)

end SchedulerService

/-- Sample create params for the scenario S1 store. -/
def p1w : CreatePostParams := ⟨"A", none, none, "https://ex.com/a", "X", none, none, none⟩

/-- Sample second create params sharing the url of p1w. -/
def p2w : CreatePostParams := ⟨"A2", none, none, "https://ex.com/a", "X", none, none, none⟩

/-- The row the first create of the S1 scenario inserts. -/
def post1w : Post := ⟨1, "A", none, none, "https://ex.com/a", "X", none, none, none, 3, 3⟩

/-- Empty store. -/
def emptyState : RepoState := ⟨[], 1, Cache.empty⟩

/-- Store after the first S1 create. -/
def state1w : RepoState := ⟨[post1w], 2, Cache.empty⟩

/-- Fresh status record of a newly registered top-headlines job. -/
def jsFresh : JobStatus := { name := "top-headlines", interval := 10 }

/-- Sample upstream article with a non-empty source name. -/
def a1w : Article :=
  ⟨⟨none, "TechCrunch"⟩, none, "T1", none, "https://ex.com/t1", none,
    "2024-01-20T10:00:00Z", none⟩

/-- Sample upstream article whose source name is the empty string. -/
def aEmptyName : Article :=
  ⟨⟨none, ""⟩, none, "T2", none, "https://ex.com/t2", none, "not-a-date", none⟩

/-- A stored post whose title contains an x between a and b. -/
def pWild : Post := ⟨1, "aXb", none, none, "https://ex.com/w", "X", none, none, some 1, 0, 0⟩

/-- Store holding only pWild. -/
def stateWild : RepoState := ⟨[pWild], 2, Cache.empty⟩

/-- List params searching for the percent-bearing query. -/
def paramsWild : PostListParams := ⟨1, 20, none, none, some "a%b"⟩

/-- A running one-job scheduler state. -/
def schedS0 : SchedulerService.SchedState :=
  { jobs := [⟨"top-headlines", 30, true⟩], running := true, cancelled := false, live := 1 }

/-- The state in which the Stop run on schedS0 completes. -/
def schedT0 : SchedulerService.SchedState :=
  { jobs := [⟨"top-headlines", 30, false⟩], running := false, cancelled := true, live := 0 }

/-! Helper lemmas. -/

theorem find?_append_of_none {α : Type} (f : α → Bool) (l1 l2 : List α)
    (h : l1.find? f = none) : (l1 ++ l2).find? f = l2.find? f := by
  induction l1 with
  | nil => simp
  | cons x xs ih =>
    rw [List.find?_cons] at h
    cases hx : f x with
    | true => simp [hx] at h
    | false =>
      simp only [hx] at h
      simpa [List.find?_cons, hx] using ih h

/-- A successful service create appends exactly the returned post, whose
url is the requested one, and the store had no row with that url. -/
theorem createPost_ok_state (σ σ1 : RepoState) (p : CreatePostParams) (now : Time)
    (post : Post) (tr : List RepoOp)
    (hc : PostService.CreatePost σ p now = (.ok post, σ1, tr)) :
    σ1.posts = σ.posts ++ [post] ∧ post.url = p.url ∧
      σ.posts.find? (fun q => q.url == p.url) = none := by
  unfold PostService.CreatePost at hc
  cases hfind : σ.posts.find? (fun q => q.url == p.url) with
  | some q =>
    simp [PostRepository.GetPostByURL, hfind, PostService.CreatePostGiven,
      PostService.postExistsLogic] at hc
  | none =>
    have hany : σ.posts.any (fun q => q.url == p.url) = false := by
      rw [List.any_eq_false]
      intro x hx
      exact List.find?_eq_none.mp hfind x hx
    simp [PostRepository.GetPostByURL, hfind, PostService.CreatePostGiven,
      PostService.postExistsLogic, PostRepository.CreatePost, hany] at hc
    obtain ⟨hpost, hσ1, _⟩ := hc
    refine ⟨?_, ?_, rfl⟩
    · rw [← hσ1, ← hpost]
    · rw [← hpost]

/-- Claim C1: after a successful create(p), a second create with the same
url returns the duplicate error ErrPostExists, leaves the store and cache
untouched, and performs no insert (the only repository access is the
duplicate-check read). -/
theorem createPost_second_returns_duplicate (σ σ1 : RepoState)
    (p p2 : CreatePostParams) (now now2 : Time) (post : Post) (tr : List RepoOp)
    (hc : PostService.CreatePost σ p now = (.ok post, σ1, tr))
    (hu : p2.url = p.url) :
    PostService.CreatePost σ1 p2 now2 =
      (.error .postExists, σ1, [.getByUrl p2.url]) := by
  obtain ⟨hposts, hurl, hnone⟩ := createPost_ok_state σ σ1 p now post tr hc
  have hfind2 : σ1.posts.find? (fun q => q.url == p2.url) = some post := by
    rw [hposts, hu, find?_append_of_none _ _ _ hnone]
    simp [List.find?_cons, hurl]
  unfold PostService.CreatePost
  simp [PostRepository.GetPostByURL, hfind2, PostService.CreatePostGiven,
    PostService.postExistsLogic]

/-- Witness for claim C1 at a concrete store and concrete params. -/
theorem createPost_second_returns_duplicate_witness :
    PostService.CreatePost emptyState p1w 3
      = (.ok post1w, state1w, [.getByUrl "https://ex.com/a", .createRow]) ∧
    PostService.CreatePost state1w p2w 4
      = (.error .postExists, state1w, [.getByUrl "https://ex.com/a"]) := by
  constructor
  · rfl
  · exact createPost_second_returns_duplicate emptyState state1w p1w p2w 3 4
      post1w [.getByUrl "https://ex.com/a", .createRow] rfl rfl

/-- Claim C3: the claim states that a duplicate-check store read failing
with an error other than row-absent is surfaced by PostExists and
CreatePost.  The code does the opposite: the PostExists body inspects only
pgx.ErrNoRows, so an infrastructure failure falls through to (true, nil)
and CreatePost then reports ErrPostExists instead of the infrastructure
error.  This theorem evaluates the embedded code on such a failing read. -/
theorem postExists_masks_infra_error :
    PostService.postExistsLogic (.error (.infra "connection refused")) = (true, none) ∧
    ∀ (σ : RepoState) (p : CreatePostParams) (now : Time),
      PostService.CreatePostGiven (.error (.infra "connection refused")) σ p now =
        (.error .postExists, σ, [.getByUrl p.url]) := by
  exact ⟨rfl, fun σ p now => rfl⟩

/-- Claim C10: GetPostByID, UpdatePost and DeletePost reject every
non-positive id with ErrPostIDInvalid, leave the store and cache
untouched, and perform no repository (store or cache) access at all: the
trace of repository calls is empty. -/
theorem nonPositiveId_rejected_without_access (σ : RepoState) (id : Int)
    (params : UpdatePostParams) (now : Time) (h : id ≤ 0) :
    PostService.GetPostByID σ id = (.error .postIDInvalid, σ, []) ∧
    PostService.UpdatePost σ id params now = (.error .postIDInvalid, σ, []) ∧
    PostService.DeletePost σ id = (.error .postIDInvalid, σ, []) := by
  refine ⟨?_, ?_, ?_⟩ <;>
    simp [PostService.GetPostByID, PostService.UpdatePost, PostService.DeletePost, h]

/-- Witness for claim C10 at id zero and id minus five on a concrete
store. -/
theorem nonPositiveId_rejected_without_access_witness :
    (PostService.GetPostByID state1w 0 = (.error .postIDInvalid, state1w, []) ∧
     PostService.UpdatePost state1w 0 ⟨"T", none, none, none, none⟩ 9 =
       (.error .postIDInvalid, state1w, []) ∧
     PostService.DeletePost state1w 0 = (.error .postIDInvalid, state1w, [])) ∧
    PostService.GetPostByID state1w (-5) = (.error .postIDInvalid, state1w, []) := by
  refine ⟨nonPositiveId_rejected_without_access state1w 0 ⟨"T", none, none, none, none⟩ 9
    (by decide), ?_⟩
  exact (nonPositiveId_rejected_without_access state1w (-5) ⟨"T", none, none, none, none⟩ 9
    (by decide)).1

/-- Claim C5: an update of an existing post leaves id, url, source,
published_at and created_at unchanged, sets exactly title, description,
content, category and image_url from the patch, sets updated_at to the
update time (hence strictly above any earlier updated_at under a
monotone clock), and rewrites only the matching row of the store. -/
theorem updatePost_frame (σ σ2 : RepoState) (id : Int)
    (params : UpdatePostParams) (now : Time) (post : Post)
    (hc : PostRepository.UpdatePost σ id params now = (.ok post, σ2)) :
    ∃ old, σ.posts.find? (fun q => q.id == id) = some old ∧
      post.id = old.id ∧ post.url = old.url ∧ post.source = old.source ∧
      post.publishedAt = old.publishedAt ∧ post.createdAt = old.createdAt ∧
      post.title = params.title ∧ post.description = params.description ∧
      post.content = params.content ∧ post.category = params.category ∧
      post.imageUrl = params.imageUrl ∧ post.updatedAt = now ∧
      (old.updatedAt < now → old.updatedAt < post.updatedAt) ∧
      σ2.posts = σ.posts.map
        (fun q => if q.id == id then PostRepository.applyUpdate params now q else q) := by
  unfold PostRepository.UpdatePost at hc
  cases hfind : σ.posts.find? (fun q => q.id == id) with
  | none => simp [hfind] at hc
  | some old =>
    simp only [hfind] at hc
    obtain ⟨hpost, hσ2⟩ := Prod.mk.injEq .. ▸ hc
    injection hpost with hpost
    refine ⟨old, rfl, ?_⟩
    rw [← hpost, ← hσ2]
    simp [PostRepository.applyUpdate]

/-- Witness for claim C5: updating the single-row S1 store at time 9. -/
theorem updatePost_frame_witness :
    ∃ old, state1w.posts.find? (fun q => q.id == 1) = some old ∧
      (PostRepository.applyUpdate ⟨"B", some "d", none, some "tech", none⟩ 9 post1w).id = old.id ∧
      (PostRepository.applyUpdate ⟨"B", some "d", none, some "tech", none⟩ 9 post1w).url = old.url ∧
      (PostRepository.applyUpdate ⟨"B", some "d", none, some "tech", none⟩ 9 post1w).source = old.source ∧
      (PostRepository.applyUpdate ⟨"B", some "d", none, some "tech", none⟩ 9 post1w).publishedAt = old.publishedAt ∧
      (PostRepository.applyUpdate ⟨"B", some "d", none, some "tech", none⟩ 9 post1w).createdAt = old.createdAt ∧
      (PostRepository.applyUpdate ⟨"B", some "d", none, some "tech", none⟩ 9 post1w).title = "B" ∧
      (PostRepository.applyUpdate ⟨"B", some "d", none, some "tech", none⟩ 9 post1w).description = some "d" ∧
      (PostRepository.applyUpdate ⟨"B", some "d", none, some "tech", none⟩ 9 post1w).content = none ∧
      (PostRepository.applyUpdate ⟨"B", some "d", none, some "tech", none⟩ 9 post1w).category = some "tech" ∧
      (PostRepository.applyUpdate ⟨"B", some "d", none, some "tech", none⟩ 9 post1w).imageUrl = none ∧
      (PostRepository.applyUpdate ⟨"B", some "d", none, some "tech", none⟩ 9 post1w).updatedAt = 9 ∧
      (old.updatedAt < 9 → old.updatedAt <
        (PostRepository.applyUpdate ⟨"B", some "d", none, some "tech", none⟩ 9 post1w).updatedAt) ∧
      (PostRepository.UpdatePost state1w 1 ⟨"B", some "d", none, some "tech", none⟩ 9).2.posts =
        state1w.posts.map
          (fun q => if q.id == 1 then
            PostRepository.applyUpdate ⟨"B", some "d", none, some "tech", none⟩ 9 q else q) :=
  updatePost_frame state1w
    (PostRepository.UpdatePost state1w 1 ⟨"B", some "d", none, some "tech", none⟩ 9).2
    1 ⟨"B", some "d", none, some "tech", none⟩ 9
    (PostRepository.applyUpdate ⟨"B", some "d", none, some "tech", none⟩ 9 post1w) rfl

/-- The repository list operation never changes the posts table and never
touches the posts:count cache entry (only the posts:list namespace). -/
theorem repoListPosts_preserves (σ : RepoState) (params : PostListParams) :
    (PostRepository.ListPosts σ params).2.posts = σ.posts ∧
    (PostRepository.ListPosts σ params).2.cache.countVal = σ.cache.countVal := by
  unfold PostRepository.ListPosts
  cases h1 : PostRepository.present params.search with
  | true => simp [h1]
  | false =>
    cases h2 : PostRepository.present params.category with
    | true => simp [h1, h2]
    | false =>
      cases h3 : PostRepository.present params.source with
      | true => simp [h1, h2, h3]
      | false =>
        cases hl : lookupAssoc (params.page, params.limit) σ.cache.lists with
        | some cached => simp [h1, h2, h3, hl]
        | none => simp [h1, h2, h3, hl]

/-- Claim C9: when the list params carry a search or a source filter but
no category, the pagination total of the service response is the global
post count of the store, not the number of rows matching the filter (the
count cache is taken empty so the store count is read). -/
theorem listPosts_total_is_global_count (σ : RepoState) (params : PostListParams)
    (hcount : σ.cache.countVal = none)
    (hcat : params.category = none ∨ params.category = some "")
    (hfil : (∃ q, params.search = some q ∧ q ≠ "") ∨
            (∃ s, params.source = some s ∧ s ≠ "")) :
    (PostService.ListPosts σ params).1.pagination.total = (σ.posts.length : Int) := by
  clear hfil
  have hkey : ∀ params2 : PostListParams,
      (PostRepository.CountPosts (PostRepository.ListPosts σ params2).2).1 =
        (σ.posts.length : Int) := by
    intro params2
    have h := repoListPosts_preserves σ params2
    unfold PostRepository.CountPosts
    rw [h.2, hcount]
    simp [h.1]
  unfold PostService.ListPosts
  dsimp only
  rcases hcat with h | h <;> rw [h]
  · exact hkey _
  · simp only [bne_self_eq_false, Bool.false_eq_true, if_false]
    exact hkey _

/-- Witness for claim C9: a two-row store and a search that matches no
row still reports total two while the page itself is empty. -/
theorem listPosts_total_is_global_count_witness :
    (PostService.ListPosts
        ⟨[post1w, ⟨2, "B", none, none, "https://ex.com/b", "Y", none, none, none, 4, 4⟩],
          3, Cache.empty⟩
        ⟨1, 20, none, none, some "zzz"⟩).1.pagination.total = 2 ∧
    (PostService.ListPosts
        ⟨[post1w, ⟨2, "B", none, none, "https://ex.com/b", "Y", none, none, none, 4, 4⟩],
          3, Cache.empty⟩
        ⟨1, 20, none, none, some "zzz"⟩).1.posts = [] := by
  constructor
  · exact listPosts_total_is_global_count
      ⟨[post1w, ⟨2, "B", none, none, "https://ex.com/b", "Y", none, none, none, 4, 4⟩],
        3, Cache.empty⟩
      ⟨1, 20, none, none, some "zzz"⟩ rfl (Or.inl rfl)
      (Or.inl ⟨"zzz", rfl, by decide⟩)
  · rfl

/-- Counterexample to claim C7: the code tests AverageRunTime equal zero,
not the run count, to detect the first run.  After a first execution of
duration zero the second execution of duration four leaves average four,
whereas the claimed simple running average of later runs demands
(0 + 4) / 2 = 2. -/
theorem executeJob_average_counterexample :
    (SchedulerService.executeJob jsFresh 10 0 12 none).runCount = 1 ∧
    (SchedulerService.executeJob jsFresh 10 0 12 none).averageRunTime = 0 ∧
    (SchedulerService.executeJob
        (SchedulerService.executeJob jsFresh 10 0 12 none) 20 4 24 none).averageRunTime = 4 ∧
    ((SchedulerService.executeJob jsFresh 10 0 12 none).averageRunTime + 4) / 2 = 2 := by
  refine ⟨rfl, rfl, rfl, rfl⟩

/-- Claim C7 as amended: one completed execution clears is_running, sets
last_run to the execution start, next_run to now plus the interval,
increments run_count, updates the average by the first duration when the
stored average is zero (the code treats a zero average as uninitialised)
and by (previous + duration) / 2 otherwise, and either clears last_error
on success or records the message and increments error_count on
failure. -/
theorem executeJob_status_update (st : JobStatus) (start duration now : Nat)
    (err : Option String) :
    (SchedulerService.executeJob st start duration now err).isRunning = false ∧
    (SchedulerService.executeJob st start duration now err).lastRun = some start ∧
    (SchedulerService.executeJob st start duration now err).nextRun = some (now + st.interval) ∧
    (SchedulerService.executeJob st start duration now err).runCount = st.runCount + 1 ∧
    (SchedulerService.executeJob st start duration now err).averageRunTime =
      (if st.averageRunTime = 0 then duration else (st.averageRunTime + duration) / 2) ∧
    (SchedulerService.executeJob st start duration now err).name = st.name ∧
    (SchedulerService.executeJob st start duration now err).interval = st.interval ∧
    (err = none →
      (SchedulerService.executeJob st start duration now err).lastError = "" ∧
      (SchedulerService.executeJob st start duration now err).errorCount = st.errorCount) ∧
    (∀ m, err = some m →
      (SchedulerService.executeJob st start duration now err).lastError = m ∧
      (SchedulerService.executeJob st start duration now err).errorCount = st.errorCount + 1) := by
  cases err <;>
    simp [SchedulerService.executeJob, SchedulerService.executeJobBegin,
      SchedulerService.executeJobFinish]

/-- Witness for the amended claim C7 at concrete successful and failing
executions. -/
theorem executeJob_status_update_witness :
    (SchedulerService.executeJob jsFresh 1 2 3 none).nextRun = some 13 ∧
    (SchedulerService.executeJob jsFresh 1 2 3 none).lastError = "" ∧
    (SchedulerService.executeJob jsFresh 1 2 3 (some "boom")).lastError = "boom" ∧
    (SchedulerService.executeJob jsFresh 1 2 3 (some "boom")).errorCount = 1 := by
  refine ⟨(executeJob_status_update jsFresh 1 2 3 none).2.2.1, ?_, ?_, ?_⟩
  · exact ((executeJob_status_update jsFresh 1 2 3 none).2.2.2.2.2.2.2.1 rfl).1
  · exact ((executeJob_status_update jsFresh 1 2 3 (some "boom")).2.2.2.2.2.2.2.2 "boom" rfl).1
  · exact ((executeJob_status_update jsFresh 1 2 3 (some "boom")).2.2.2.2.2.2.2.2 "boom" rfl).2

/-- Executor-task exits preserve the jobs table, the running flag and the
cancellation flag, and never increase the live-task counter. -/
theorem taskExits_invariant (a b : SchedulerService.SchedState)
    (h : Relation.ReflTransGen SchedulerService.TaskExit a b) :
    b.jobs = a.jobs ∧ b.running = a.running ∧ b.cancelled = a.cancelled ∧
      b.live ≤ a.live := by
  induction h with
  | refl => exact ⟨rfl, rfl, rfl, le_refl _⟩
  | tail _ step ih =>
    cases step with
    | exit hc hl =>
      refine ⟨ih.1, ih.2.1, ih.2.2.1, ?_⟩
      exact le_trans (Nat.sub_le _ _) ih.2.2.2

/-- From any cancelled state the live executor tasks can drain to zero. -/
theorem drain_reachable (s : SchedulerService.SchedState) (hc : s.cancelled = true) :
    Relation.ReflTransGen SchedulerService.TaskExit s { s with live := 0 } := by
  obtain ⟨jobs, running, cancelled, live⟩ := s
  induction live with
  | zero => exact Relation.ReflTransGen.refl
  | succ n ih =>
    exact Relation.ReflTransGen.head
      (SchedulerService.TaskExit.exit ⟨jobs, running, cancelled, n + 1⟩ hc (Nat.succ_pos n))
      (ih hc)

/-- Claim C8: Stop is idempotent, returning at once and unchanged when the
scheduler is not running; when it is running, a Stop run always exists
(the drain completes), and any completed Stop run has stopped every job
ticker, cancelled the start context, drained the live-task counter to
zero (so no job task is still executing) and cleared the running flag. -/
theorem schedulerStop_drains (s : SchedulerService.SchedState) :
    (∃ t, SchedulerService.StopRun s t) ∧
    (∀ t, SchedulerService.StopRun s t →
      (s.running = false → t = s) ∧
      (s.running = true → t.live = 0 ∧ t.running = false ∧ t.cancelled = true ∧
        ∀ j ∈ t.jobs, j.tickerActive = false)) := by
  constructor
  · cases hr : s.running with
    | false => exact ⟨s, SchedulerService.StopRun.notRunning s hr⟩
    | true =>
      refine ⟨SchedulerService.stopFinish { SchedulerService.stopBegin s with live := 0 },
        SchedulerService.StopRun.drain s _ hr ?_ rfl⟩
      exact drain_reachable (SchedulerService.stopBegin s) rfl
  · intro t ht
    cases ht with
    | notRunning h =>
      exact ⟨fun _ => rfl, fun hr => absurd hr (by simp [h])⟩
    | drain mid h hchain hzero =>
      refine ⟨fun hr => absurd h (by simp [hr]), fun _ => ?_⟩
      obtain ⟨hjobs, hrun, hcanc, _⟩ := taskExits_invariant _ _ hchain
      refine ⟨hzero, rfl, ?_, ?_⟩
      · show mid.cancelled = true
        exact hcanc
      · intro j hj
        have hj2 : j ∈ mid.jobs := hj
        rw [hjobs] at hj2
        simp only [SchedulerService.stopBegin, List.mem_map] at hj2
        obtain ⟨j0, _, hj0⟩ := hj2
        rw [← hj0]

/-- Witness for claim C8: a concrete Stop run on a running one-job
scheduler with one live executor task reaches the drained stopped state. -/
theorem schedulerStop_drains_witness :
    SchedulerService.StopRun schedS0 schedT0 ∧
    schedT0.live = 0 ∧ schedT0.running = false ∧ schedT0.cancelled = true := by
  have hrun : SchedulerService.StopRun schedS0 schedT0 := by
    have hstep : SchedulerService.TaskExit (SchedulerService.stopBegin schedS0)
        { SchedulerService.stopBegin schedS0 with live := 0 } :=
      SchedulerService.TaskExit.exit _ rfl (Nat.succ_pos 0)
    exact SchedulerService.StopRun.drain schedS0 _ rfl
      (Relation.ReflTransGen.single hstep) rfl
  have hprops := ((schedulerStop_drains schedS0).2 schedT0 hrun).2 rfl
  exact ⟨hrun, hprops.1, hprops.2.1, hprops.2.2.1⟩

/-- Three pointwise-exclusive filters never select more than the list
length in total. -/
theorem filter_triple_length_le {α : Type} (P Q R : α → Bool) (l : List α)
    (h : ∀ x, (if P x then 1 else 0) + (if Q x then 1 else 0) +
      (if R x then 1 else 0) ≤ 1) :
    (l.filter P).length + (l.filter Q).length + (l.filter R).length ≤ l.length := by
  induction l with
  | nil => simp
  | cons a t ih =>
    have ha := h a
    cases hP : P a <;> cases hQ : Q a <;> cases hR : R a <;>
      simp [List.filter_cons, hP, hQ, hR] at ha ⊢ <;> omega

/-- Characterisation of the processCategoryNews article loop: the fetched
count is untouched, the created, duplicates and errors counters count the
outcomes over the articles with non-empty source name, and exactly those
articles are attempted. -/
theorem catLoop_spec (createFn : Article → CreateResult) (arts : List Article)
    (acc : BaseStats × List Article) :
    (arts.foldl (AggregatorService.catStep createFn) acc).1.fetched = acc.1.fetched ∧
    (arts.foldl (AggregatorService.catStep createFn) acc).1.created =
      acc.1.created + ((arts.filter (fun a => a.source.name != "")).filter
        (fun a => (createFn a).isCreated)).length ∧
    (arts.foldl (AggregatorService.catStep createFn) acc).1.duplicates =
      acc.1.duplicates + ((arts.filter (fun a => a.source.name != "")).filter
        (fun a => (createFn a).isDup)).length ∧
    (arts.foldl (AggregatorService.catStep createFn) acc).1.errors =
      acc.1.errors + ((arts.filter (fun a => a.source.name != "")).filter
        (fun a => (createFn a).isOther)).length ∧
    (arts.foldl (AggregatorService.catStep createFn) acc).2 =
      acc.2 ++ arts.filter (fun a => a.source.name != "") := by
  induction arts generalizing acc with
  | nil => simp
  | cons a rest ih =>
    rw [List.foldl_cons]
    cases hname : a.source.name != "" with
    | false =>
      have ih2 := ih acc
      simp only [AggregatorService.catStep, hname] at ih2 ⊢
      simpa [List.filter_cons, hname] using ih2
    | true =>
      cases hcf : createFn a with
      | ok p =>
        have ih2 := ih ({ acc.1 with created := acc.1.created + 1 }, acc.2 ++ [a])
        obtain ⟨ihf, ihc, ihd, ihe, iha⟩ := ih2
        simp only [AggregatorService.catStep, hname, hcf] at ihf ihc ihd ihe iha ⊢
        refine ⟨by simpa using ihf, ?_, ?_, ?_, ?_⟩ <;>
          simp [List.filter_cons, hname, hcf, CreateResult.isCreated,
            CreateResult.isDup, CreateResult.isOther, ihc, ihd, ihe, iha] <;>
          omega
      | okNil =>
        have ih2 := ih (acc.1, acc.2 ++ [a])
        obtain ⟨ihf, ihc, ihd, ihe, iha⟩ := ih2
        simp only [AggregatorService.catStep, hname, hcf] at ihf ihc ihd ihe iha ⊢
        refine ⟨by simpa using ihf, ?_, ?_, ?_, ?_⟩ <;>
          simp [List.filter_cons, hname, hcf, CreateResult.isCreated,
            CreateResult.isDup, CreateResult.isOther, ihc, ihd, ihe, iha] <;>
          omega
      | dupErr =>
        have ih2 := ih ({ acc.1 with duplicates := acc.1.duplicates + 1 }, acc.2 ++ [a])
        obtain ⟨ihf, ihc, ihd, ihe, iha⟩ := ih2
        simp only [AggregatorService.catStep, hname, hcf] at ihf ihc ihd ihe iha ⊢
        refine ⟨by simpa using ihf, ?_, ?_, ?_, ?_⟩ <;>
          simp [List.filter_cons, hname, hcf, CreateResult.isCreated,
            CreateResult.isDup, CreateResult.isOther, ihc, ihd, ihe, iha] <;>
          omega
      | otherErr m =>
        have ih2 := ih ({ acc.1 with errors := acc.1.errors + 1 }, acc.2 ++ [a])
        obtain ⟨ihf, ihc, ihd, ihe, iha⟩ := ih2
        simp only [AggregatorService.catStep, hname, hcf] at ihf ihc ihd ihe iha ⊢
        refine ⟨by simpa using ihf, ?_, ?_, ?_, ?_⟩ <;>
          simp [List.filter_cons, hname, hcf, CreateResult.isCreated,
            CreateResult.isDup, CreateResult.isOther, ihc, ihd, ihe, iha] <;>
          omega

/-- Characterisation of the processSourceNews article loop: every article
is attempted, and the batch counters count the outcomes over all articles
(the empty source name is not filtered in this path). -/
theorem srcLoop_spec (createFn : Article → CreateResult) (arts : List Article)
    (acc : AggregatorService.SrcAcc) :
    (arts.foldl (AggregatorService.srcStep createFn) acc).created =
      acc.created + (arts.filter (fun a => (createFn a).isCreated)).length ∧
    (arts.foldl (AggregatorService.srcStep createFn) acc).duplicates =
      acc.duplicates + (arts.filter (fun a => (createFn a).isDup)).length ∧
    (arts.foldl (AggregatorService.srcStep createFn) acc).errors =
      acc.errors + (arts.filter (fun a => (createFn a).isOther)).length ∧
    (arts.foldl (AggregatorService.srcStep createFn) acc).attempted =
      acc.attempted ++ arts := by
  induction arts generalizing acc with
  | nil => simp
  | cons a rest ih =>
    rw [List.foldl_cons]
    cases hcf : createFn a <;>
      · obtain ⟨ihc, ihd, ihe, iha⟩ := ih (AggregatorService.srcStep createFn acc a)
        refine ⟨?_, ?_, ?_, ?_⟩ <;>
          simp only [ihc, ihd, ihe, iha] <;>
          simp [AggregatorService.srcStep, hcf, List.filter_cons,
            CreateResult.isCreated, CreateResult.isDup, CreateResult.isOther] <;>
          omega

/-- The three create outcomes are mutually exclusive. -/
theorem createResult_outcomes_exclusive (r : CreateResult) :
    (if r.isCreated then 1 else 0) + (if r.isDup then 1 else 0) +
      (if r.isOther then 1 else 0) ≤ 1 := by
  cases r <;> simp [CreateResult.isCreated, CreateResult.isDup, CreateResult.isOther]

/-- A category unit with a successful upstream fetch reports the article
count as fetched and never counts more outcomes than articles. -/
theorem processCategoryNews_ok_bound (createFn : Article → CreateResult)
    (arts : List Article) :
    (AggregatorService.processCategoryNews (.ok arts) createFn).1.fetched = arts.length ∧
    (AggregatorService.processCategoryNews (.ok arts) createFn).1.created +
      (AggregatorService.processCategoryNews (.ok arts) createFn).1.duplicates +
      (AggregatorService.processCategoryNews (.ok arts) createFn).1.errors ≤
      (AggregatorService.processCategoryNews (.ok arts) createFn).1.fetched := by
  obtain ⟨hf, hc, hd, he, _⟩ :=
    catLoop_spec createFn arts ({ fetched := arts.length }, ([] : List Article))
  dsimp only at hf hc hd he
  rw [AggregatorService.processCategoryNews]
  refine ⟨hf, ?_⟩
  rw [hf, hc, hd, he]
  have htriple := filter_triple_length_le
    (fun a => (createFn a).isCreated) (fun a => (createFn a).isDup)
    (fun a => (createFn a).isOther)
    (arts.filter (fun a => a.source.name != ""))
    (fun a => createResult_outcomes_exclusive (createFn a))
  have hfl : (arts.filter (fun a => a.source.name != "")).length ≤ arts.length :=
    List.length_filter_le _ _
  omega

/-- A source-batch unit with a successful upstream fetch reports the
article count as fetched, counts every outcome over all articles, and
never counts more outcomes than articles. -/
theorem processSourceNews_ok_bound (srcs : List String)
    (createFn : Article → CreateResult) (arts : List Article) :
    (AggregatorService.processSourceNews srcs (.ok arts) createFn).1.totalFetched =
      arts.length ∧
    (AggregatorService.processSourceNews srcs (.ok arts) createFn).1.totalCreated +
      (AggregatorService.processSourceNews srcs (.ok arts) createFn).1.totalDuplicates +
      (AggregatorService.processSourceNews srcs (.ok arts) createFn).1.totalErrors ≤
      (AggregatorService.processSourceNews srcs (.ok arts) createFn).1.totalFetched := by
  obtain ⟨hc, hd, he, _⟩ := srcLoop_spec createFn arts
    { stats := srcs.foldl (fun m s => insertAssoc s {} m) [] }
  rw [AggregatorService.processSourceNews]
  refine ⟨rfl, ?_⟩
  dsimp only
  rw [hc, hd, he]
  have htriple := filter_triple_length_le
    (fun a => (createFn a).isCreated) (fun a => (createFn a).isDup)
    (fun a => (createFn a).isOther) arts
    (fun a => createResult_outcomes_exclusive (createFn a))
  simp only [AggregatorService.SrcAcc.created, AggregatorService.SrcAcc.duplicates,
    AggregatorService.SrcAcc.errors]
  omega

/-- Totals of the category fold are the accumulator plus the per-unit
sums. -/
theorem aggCats_fold (fetchFn : String → Except String (List Article))
    (createFn : Article → CreateResult) (cats : List String)
    (acc : AggregationResponse) :
    ((cats.foldl (AggregatorService.catMerge fetchFn createFn) acc).totalFetched =
      acc.totalFetched + (cats.map (fun c =>
        (AggregatorService.processCategoryNews (fetchFn c) createFn).1.fetched)).sum) ∧
    ((cats.foldl (AggregatorService.catMerge fetchFn createFn) acc).totalCreated =
      acc.totalCreated + (cats.map (fun c =>
        (AggregatorService.processCategoryNews (fetchFn c) createFn).1.created)).sum) ∧
    ((cats.foldl (AggregatorService.catMerge fetchFn createFn) acc).totalDuplicates =
      acc.totalDuplicates + (cats.map (fun c =>
        (AggregatorService.processCategoryNews (fetchFn c) createFn).1.duplicates)).sum) ∧
    ((cats.foldl (AggregatorService.catMerge fetchFn createFn) acc).totalErrors =
      acc.totalErrors + (cats.map (fun c =>
        (AggregatorService.processCategoryNews (fetchFn c) createFn).1.errors)).sum) := by
  induction cats generalizing acc with
  | nil => simp
  | cons c rest ih =>
    obtain ⟨ihf, ihc, ihd, ihe⟩ := ih (AggregatorService.catMerge fetchFn createFn acc c)
    rw [List.foldl_cons]
    refine ⟨?_, ?_, ?_, ?_⟩ <;>
      simp only [ihf, ihc, ihd, ihe] <;>
      simp [AggregatorService.catMerge] <;>
      omega

/-- Totals of the source-batch fold are the accumulator plus the per-unit
sums. -/
theorem aggSrc_fold (fetchFn : List String → Except String (List Article))
    (createFn : Article → CreateResult) (batches : List (List String))
    (acc : AggregationResponse) :
    ((batches.foldl (AggregatorService.srcMerge fetchFn createFn) acc).totalFetched =
      acc.totalFetched + (batches.map (fun b =>
        (AggregatorService.processSourceNews b (fetchFn b) createFn).1.totalFetched)).sum) ∧
    ((batches.foldl (AggregatorService.srcMerge fetchFn createFn) acc).totalCreated =
      acc.totalCreated + (batches.map (fun b =>
        (AggregatorService.processSourceNews b (fetchFn b) createFn).1.totalCreated)).sum) ∧
    ((batches.foldl (AggregatorService.srcMerge fetchFn createFn) acc).totalDuplicates =
      acc.totalDuplicates + (batches.map (fun b =>
        (AggregatorService.processSourceNews b (fetchFn b) createFn).1.totalDuplicates)).sum) ∧
    ((batches.foldl (AggregatorService.srcMerge fetchFn createFn) acc).totalErrors =
      acc.totalErrors + (batches.map (fun b =>
        (AggregatorService.processSourceNews b (fetchFn b) createFn).1.totalErrors)).sum) := by
  induction batches generalizing acc with
  | nil => simp
  | cons b rest ih =>
    obtain ⟨ihf, ihc, ihd, ihe⟩ := ih (AggregatorService.srcMerge fetchFn createFn acc b)
    rw [List.foldl_cons]
    refine ⟨?_, ?_, ?_, ?_⟩ <;>
      simp only [ihf, ihc, ihd, ihe] <;>
      simp [AggregatorService.srcMerge] <;>
      omega

/-- Summing three pointwise-bounded maps stays below the bound map. -/
theorem sum_triple_le {α : Type} (l : List α) (u d e f : α → Nat)
    (h : ∀ x ∈ l, u x + d x + e x ≤ f x) :
    (l.map u).sum + (l.map d).sum + (l.map e).sum ≤ (l.map f).sum := by
  induction l with
  | nil => simp
  | cons a t ih =>
    have ha := h a (by simp)
    have ht := ih (fun x hx => h x (by simp [hx]))
    simp only [List.map_cons, List.sum_cons]
    omega

/-- Counterexample to claim C2: a category whose upstream fetch fails
(for example with a rate limit) contributes one error and zero fetched,
so total_created + total_duplicates + total_errors exceeds
total_fetched. -/
theorem aggregation_totals_counterexample :
    (AggregatorService.aggregateByCategories
        (fun _ => .error "rate limited") (fun _ => .okNil) ["technology"]).totalFetched = 0 ∧
    (AggregatorService.aggregateByCategories
        (fun _ => .error "rate limited") (fun _ => .okNil) ["technology"]).totalCreated = 0 ∧
    (AggregatorService.aggregateByCategories
        (fun _ => .error "rate limited") (fun _ => .okNil) ["technology"]).totalDuplicates = 0 ∧
    (AggregatorService.aggregateByCategories
        (fun _ => .error "rate limited") (fun _ => .okNil) ["technology"]).totalErrors = 1 ∧
    ¬(1 ≤ (0 : Nat)) := by
  refine ⟨rfl, rfl, rfl, rfl, by omega⟩

/-- Claim C2 as amended: in both aggregation paths total_fetched is the
sum of the per-unit fetched counts, and when every unit upstream fetch
succeeds the report satisfies
total_created + total_duplicates + total_errors at most total_fetched
(a failed unit fetch adds an error with zero fetched, breaking the
inequality as the counterexample shows). -/
theorem aggregation_report_totals (fetchC : String → Except String (List Article))
    (fetchS : List String → Except String (List Article))
    (createFn : Article → CreateResult) (cats sources : List String) :
    ((AggregatorService.aggregateByCategories fetchC createFn cats).totalFetched =
      (cats.map (fun c =>
        (AggregatorService.processCategoryNews (fetchC c) createFn).1.fetched)).sum) ∧
    ((∀ c ∈ cats, ∃ arts, fetchC c = .ok arts) →
      (AggregatorService.aggregateByCategories fetchC createFn cats).totalCreated +
        (AggregatorService.aggregateByCategories fetchC createFn cats).totalDuplicates +
        (AggregatorService.aggregateByCategories fetchC createFn cats).totalErrors ≤
        (AggregatorService.aggregateByCategories fetchC createFn cats).totalFetched) ∧
    ((AggregatorService.aggregateBySources fetchS createFn sources).totalFetched =
      ((AggregatorService.chunks3 sources).map (fun b =>
        (AggregatorService.processSourceNews b (fetchS b) createFn).1.totalFetched)).sum) ∧
    ((∀ b ∈ AggregatorService.chunks3 sources, ∃ arts, fetchS b = .ok arts) →
      (AggregatorService.aggregateBySources fetchS createFn sources).totalCreated +
        (AggregatorService.aggregateBySources fetchS createFn sources).totalDuplicates +
        (AggregatorService.aggregateBySources fetchS createFn sources).totalErrors ≤
        (AggregatorService.aggregateBySources fetchS createFn sources).totalFetched) := by
  obtain ⟨hcf, hcc, hcd, hce⟩ := aggCats_fold fetchC createFn cats {}
  obtain ⟨hsf, hsc, hsd, hse⟩ :=
    aggSrc_fold fetchS createFn (AggregatorService.chunks3 sources) {}
  rw [AggregatorService.aggregateByCategories, AggregatorService.aggregateBySources]
  refine ⟨by simpa using hcf, ?_, by simpa using hsf, ?_⟩
  · intro hok
    rw [hcf, hcc, hcd, hce]
    have hsum := sum_triple_le cats
      (fun c => (AggregatorService.processCategoryNews (fetchC c) createFn).1.created)
      (fun c => (AggregatorService.processCategoryNews (fetchC c) createFn).1.duplicates)
      (fun c => (AggregatorService.processCategoryNews (fetchC c) createFn).1.errors)
      (fun c => (AggregatorService.processCategoryNews (fetchC c) createFn).1.fetched)
      (fun c hc => by
        obtain ⟨arts, harts⟩ := hok c hc
        simp only [harts]
        exact (processCategoryNews_ok_bound createFn arts).2)
    simpa using hsum
  · intro hok
    rw [hsf, hsc, hsd, hse]
    have hsum := sum_triple_le (AggregatorService.chunks3 sources)
      (fun b => (AggregatorService.processSourceNews b (fetchS b) createFn).1.totalCreated)
      (fun b => (AggregatorService.processSourceNews b (fetchS b) createFn).1.totalDuplicates)
      (fun b => (AggregatorService.processSourceNews b (fetchS b) createFn).1.totalErrors)
      (fun b => (AggregatorService.processSourceNews b (fetchS b) createFn).1.totalFetched)
      (fun b hb => by
        obtain ⟨arts, harts⟩ := hok b hb
        simp only [harts]
        exact (processSourceNews_ok_bound b createFn arts).2)
    simpa using hsum

/-- Witness for the amended claim C2 on a concrete run: one category with
one fetched article and one two-source batch with one fetched article. -/
theorem aggregation_report_totals_witness :
    (AggregatorService.aggregateByCategories (fun _ => .ok [a1w])
      (fun _ => .ok post1w) ["technology"]).totalFetched =
      (["technology"].map (fun c =>
        (AggregatorService.processCategoryNews ((fun _ => .ok [a1w]) c)
          (fun _ => .ok post1w)).1.fetched)).sum ∧
    (AggregatorService.aggregateByCategories (fun _ => .ok [a1w])
      (fun _ => .ok post1w) ["technology"]).totalCreated +
      (AggregatorService.aggregateByCategories (fun _ => .ok [a1w])
        (fun _ => .ok post1w) ["technology"]).totalDuplicates +
      (AggregatorService.aggregateByCategories (fun _ => .ok [a1w])
        (fun _ => .ok post1w) ["technology"]).totalErrors ≤
      (AggregatorService.aggregateByCategories (fun _ => .ok [a1w])
        (fun _ => .ok post1w) ["technology"]).totalFetched ∧
    (AggregatorService.aggregateBySources (fun _ => .ok [a1w])
      (fun _ => .ok post1w) ["bbc-news", "cnn"]).totalCreated +
      (AggregatorService.aggregateBySources (fun _ => .ok [a1w])
        (fun _ => .ok post1w) ["bbc-news", "cnn"]).totalDuplicates +
      (AggregatorService.aggregateBySources (fun _ => .ok [a1w])
        (fun _ => .ok post1w) ["bbc-news", "cnn"]).totalErrors ≤
      (AggregatorService.aggregateBySources (fun _ => .ok [a1w])
        (fun _ => .ok post1w) ["bbc-news", "cnn"]).totalFetched := by
  have h := aggregation_report_totals (fun _ => .ok [a1w]) (fun _ => .ok [a1w])
    (fun _ => .ok post1w) ["technology"] ["bbc-news", "cnn"]
  exact ⟨h.1, h.2.1 (fun c _ => ⟨[a1w], rfl⟩), h.2.2.2 (fun b _ => ⟨[a1w], rfl⟩)⟩

/-- Counterexample to claim C4: in the per-source-batch path an article
with empty source.name is NOT skipped: the create is attempted (the
spec-modelled CreatePostFromNewsAPI touches the store and inserts a row
with empty source) and its outcome is counted in the report totals; only
the per-source stats map ignores it because the empty name is not a key
of the batch. -/
theorem processSourceNews_empty_name_counterexample :
    (AggregatorService.processSourceNews ["bbc-news"] (.ok [aEmptyName])
      (fun _ => .ok post1w)).1.totalCreated = 1 ∧
    (AggregatorService.processSourceNews ["bbc-news"] (.ok [aEmptyName])
      (fun _ => .ok post1w)).2 = [aEmptyName] ∧
    lookupAssoc "" (AggregatorService.processSourceNews ["bbc-news"] (.ok [aEmptyName])
      (fun _ => .ok post1w)).1.sources = none ∧
    (PostService.CreatePostFromNewsAPI emptyState (fun _ => none) aEmptyName 5).2.2 =
      [.getByUrl "https://ex.com/t2", .createRow] ∧
    (PostService.CreatePostFromNewsAPI emptyState (fun _ => none) aEmptyName 5).1.1 =
      some ⟨1, "T2", none, none, "https://ex.com/t2", "", none, none, none, 5, 5⟩ := by
  refine ⟨rfl, rfl, rfl, rfl, rfl⟩

/-- Claim C4 as amended: the per-category unit attempts a create exactly
for the articles with non-empty source name, and its created, duplicates
and errors counters count outcomes over those articles only, so an
empty-source article contributes nothing there; the per-source-batch unit
attempts a create for every article, empty source names included, and its
totals count every outcome. -/
theorem empty_source_name_paths (createFn : Article → CreateResult)
    (arts : List Article) (srcs : List String) :
    ((AggregatorService.processCategoryNews (.ok arts) createFn).2 =
      arts.filter (fun a => a.source.name != "")) ∧
    (∀ a ∈ (AggregatorService.processCategoryNews (.ok arts) createFn).2,
      a.source.name ≠ "") ∧
    ((AggregatorService.processCategoryNews (.ok arts) createFn).1.fetched =
      arts.length) ∧
    ((AggregatorService.processCategoryNews (.ok arts) createFn).1.created =
      ((arts.filter (fun a => a.source.name != "")).filter
        (fun a => (createFn a).isCreated)).length) ∧
    ((AggregatorService.processCategoryNews (.ok arts) createFn).1.duplicates =
      ((arts.filter (fun a => a.source.name != "")).filter
        (fun a => (createFn a).isDup)).length) ∧
    ((AggregatorService.processCategoryNews (.ok arts) createFn).1.errors =
      ((arts.filter (fun a => a.source.name != "")).filter
        (fun a => (createFn a).isOther)).length) ∧
    ((AggregatorService.processSourceNews srcs (.ok arts) createFn).2 = arts) ∧
    ((AggregatorService.processSourceNews srcs (.ok arts) createFn).1.totalCreated =
      (arts.filter (fun a => (createFn a).isCreated)).length) ∧
    ((AggregatorService.processSourceNews srcs (.ok arts) createFn).1.totalDuplicates =
      (arts.filter (fun a => (createFn a).isDup)).length) ∧
    ((AggregatorService.processSourceNews srcs (.ok arts) createFn).1.totalErrors =
      (arts.filter (fun a => (createFn a).isOther)).length) := by
  obtain ⟨hf, hc, hd, he, ha⟩ :=
    catLoop_spec createFn arts ({ fetched := arts.length }, ([] : List Article))
  dsimp only at hf hc hd he ha
  obtain ⟨hsc, hsd, hse, hsa⟩ := srcLoop_spec createFn arts
    { stats := srcs.foldl (fun m s => insertAssoc s {} m) [] }
  rw [AggregatorService.processCategoryNews, AggregatorService.processSourceNews]
  have hatt : (arts.foldl (AggregatorService.catStep createFn)
      ({ fetched := arts.length }, ([] : List Article))).2 =
      arts.filter (fun a => a.source.name != "") := by simpa using ha
  refine ⟨hatt, ?_, hf, by simpa using hc, by simpa using hd, by simpa using he,
    by simpa using hsa, by simpa using hsc, by simpa using hsd, by simpa using hse⟩
  intro a hmem
  rw [hatt] at hmem
  have := List.mem_filter.mp hmem
  simpa using this.2

/-- Witness for the amended claim C4 on a concrete article pair: one
article with source TechCrunch and one with an empty source name. -/
theorem empty_source_name_paths_witness :
    (AggregatorService.processCategoryNews (.ok [a1w, aEmptyName])
      (fun _ => .ok post1w)).2 = [a1w] ∧
    (AggregatorService.processCategoryNews (.ok [a1w, aEmptyName])
      (fun _ => .ok post1w)).1.created = 1 ∧
    (AggregatorService.processCategoryNews (.ok [a1w, aEmptyName])
      (fun _ => .ok post1w)).1.fetched = 2 ∧
    (AggregatorService.processSourceNews ["bbc-news"] (.ok [a1w, aEmptyName])
      (fun _ => .ok post1w)).2 = [a1w, aEmptyName] ∧
    (AggregatorService.processSourceNews ["bbc-news"] (.ok [a1w, aEmptyName])
      (fun _ => .ok post1w)).1.totalCreated = 2 := by
  have h := empty_source_name_paths (fun _ => .ok post1w) [a1w, aEmptyName] ["bbc-news"]
  refine ⟨?_, ?_, h.2.2.1, ?_, ?_⟩
  · rw [h.1]; rfl
  · rw [h.2.2.2.1]; rfl
  · exact h.2.2.2.2.2.2.1
  · rw [h.2.2.2.2.2.2.2.1]; rfl

/-- An all-suffixes scan with the empty-pattern matcher always succeeds
(the empty suffix matches). -/
theorem suffixAny_isEmpty (text : List Char) :
    suffixAny (fun t => t.isEmpty) text = true := by
  induction text with
  | nil => rfl
  | cons c cs ih => simp [suffixAny, ih]

/-- Unfolding equation for a leading percent: the rest of the pattern is
tried on every suffix of the text. -/
theorem likeMatch_star_unfold (rest text : List Char) :
    likeMatch ('%' :: rest) text = suffixAny (likeMatch rest) text := by
  cases rest with
  | nil => cases text <;> rfl
  | cons e ps2 => cases text <;> rfl

/-- Unfolding equation for a leading ordinary character (not a percent,
an underscore or the escape backslash). -/
theorem likeMatch_plain_unfold (p : Char) (ps text : List Char)
    (hp1 : ¬p = '%') (hp2 : ¬p = '_') (hp3 : ¬p = '\\') :
    likeMatch (p :: ps) text =
      (match text with
       | [] => false
       | c :: cs => p == c && likeMatch ps cs) := by
  cases ps <;> cases text <;> simp [likeMatch, hp1, hp2, hp3]

/-- A wildcard-free pattern followed by a trailing percent LIKE-matches a
text exactly when the text starts with the pattern. -/
theorem likeMatch_append_star (pat : List Char) (hw : noWild pat = true) :
    ∀ text, likeMatch (pat ++ ['%']) text = leadMatch pat text := by
  induction pat with
  | nil =>
    intro text
    simp only [List.nil_append, leadMatch]
    rw [likeMatch_star_unfold]
    exact suffixAny_isEmpty text
  | cons p ps ih =>
    have hall := by simpa [noWild] using hw
    have hp1 : ¬(p = '%') := hall.1.1.1
    have hp2 : ¬(p = '_') := hall.1.1.2
    have hp3 : ¬(p = '\\') := hall.1.2
    have hw2 : noWild ps = true := by
      simp [noWild]
      exact hall.2
    intro text
    cases text with
    | nil => simp [likeMatch_plain_unfold p _ _ hp1 hp2 hp3, leadMatch]
    | cons c cs =>
      simp [likeMatch_plain_unfold p _ _ hp1 hp2 hp3, leadMatch, ih hw2 cs]

/-- An all-suffixes scan with the star-extended wildcard-free pattern is
containment of the pattern. -/
theorem suffixAny_contains (pat : List Char) (hw : noWild pat = true) :
    ∀ text, suffixAny (likeMatch (pat ++ ['%'])) text = containsSub pat text := by
  intro text
  induction text with
  | nil =>
    show likeMatch (pat ++ ['%']) [] = containsSub pat []
    rw [likeMatch_append_star pat hw]
    rfl
  | cons c cs ih =>
    show (likeMatch (pat ++ ['%']) (c :: cs) || suffixAny (likeMatch (pat ++ ['%'])) cs) =
      containsSub pat (c :: cs)
    rw [likeMatch_append_star pat hw, ih]
    rfl

/-- The full search pattern percent-pat-percent LIKE-matches a text
exactly when the wildcard-free pat occurs contiguously in the text. -/
theorem likeMatch_contains (pat : List Char) (hw : noWild pat = true)
    (text : List Char) :
    likeMatch ('%' :: (pat ++ ['%'])) text = containsSub pat text := by
  rw [likeMatch_star_unfold]
  exact suffixAny_contains pat hw text

/-- For a query without percent, underscore or backslash characters the
embedded ILIKE containment coincides with case-insensitive substring
containment. -/
theorem ilikeContains_eq_substring (q text : String)
    (hw : noWild (lowerStr q) = true) :
    ilikeContains q text = containsSub (lowerStr q) (lowerStr text) := by
  unfold ilikeContains
  exact likeMatch_contains _ hw _

/-- Counterexample to claim C6: the search path is an SQL ILIKE with the
raw query spliced between two percent signs, so it is a pattern match,
not a substring match.  A query containing a percent is a wildcard match:
searching a-percent-b returns the stored row titled aXb although the
claimed case-insensitive substring filter selects nothing.  A query
containing a backslash triggers the default LIKE escape: the query
a-backslash-b matches the text ab and fails to match the text
a-backslash-b, while substring containment does the opposite on both. -/
theorem searchPosts_wildcard_counterexample :
    (PostRepository.ListPosts stateWild paramsWild).1 = [pWild] ∧
    stateWild.posts.filter (fun p => specSearchPred "a%b" p) = [] ∧
    specSearchPred "a%b" pWild = false ∧
    (PostRepository.ListPosts stateWild paramsWild).2 = stateWild ∧
    ilikeContains "a\\b" "ab" = true ∧
    containsSub (lowerStr "a\\b") (lowerStr "ab") = false ∧
    ilikeContains "a\\b" "a\\b" = false ∧
    containsSub (lowerStr "a\\b") (lowerStr "a\\b") = true := by
  refine ⟨rfl, rfl, rfl, rfl, rfl, rfl, rfl, rfl⟩

/-- Claim C6 as amended: ListPosts routes exactly as the switch does
(search first, then category, then source, then the unfiltered default);
the three filtered branches never touch the cache; only the default
branch reads the posts list cache at the page-limit key and fills it on a
miss; and the search filter is the ILIKE pattern match — with percent and
underscore as wildcards and backslash as the default escape character —
which agrees with case-insensitive substring containment precisely for
queries free of percent, underscore and backslash. -/
theorem listPosts_routing (σ : RepoState) (params : PostListParams) :
    (PostRepository.present params.search = true →
      PostRepository.ListPosts σ params =
        (PostRepository.SearchPosts σ.posts (params.search.getD "")
          params.limit ((params.page - 1) * params.limit), σ)) ∧
    (PostRepository.present params.search = false →
      PostRepository.present params.category = true →
      PostRepository.ListPosts σ params =
        (PostRepository.ListPostsByCategory σ.posts (params.category.getD "")
          params.limit ((params.page - 1) * params.limit), σ)) ∧
    (PostRepository.present params.search = false →
      PostRepository.present params.category = false →
      PostRepository.present params.source = true →
      PostRepository.ListPosts σ params =
        (PostRepository.ListPostsBySource σ.posts (params.source.getD "")
          params.limit ((params.page - 1) * params.limit), σ)) ∧
    (PostRepository.present params.search = false →
      PostRepository.present params.category = false →
      PostRepository.present params.source = false →
      (∀ cached, lookupAssoc (params.page, params.limit) σ.cache.lists = some cached →
        PostRepository.ListPosts σ params = (cached, σ)) ∧
      (lookupAssoc (params.page, params.limit) σ.cache.lists = none →
        PostRepository.ListPosts σ params =
          (sqlPage (fun _ => true) params.limit ((params.page - 1) * params.limit) σ.posts,
            { σ with cache := { σ.cache with
              lists := insertAssoc (params.page, params.limit)
                (sqlPage (fun _ => true) params.limit
                  ((params.page - 1) * params.limit) σ.posts) σ.cache.lists } }))) ∧
    (∀ q text, noWild (lowerStr q) = true →
      ilikeContains q text = containsSub (lowerStr q) (lowerStr text)) := by
  refine ⟨?_, ?_, ?_, ?_, fun q text hw => ilikeContains_eq_substring q text hw⟩
  · intro h1
    simp [PostRepository.ListPosts, h1]
  · intro h1 h2
    simp [PostRepository.ListPosts, h1, h2]
  · intro h1 h2 h3
    simp [PostRepository.ListPosts, h1, h2, h3]
  · intro h1 h2 h3
    constructor
    · intro cached hl
      simp [PostRepository.ListPosts, h1, h2, h3, hl]
    · intro hl
      simp [PostRepository.ListPosts, h1, h2, h3, hl]

/-- Witness for the amended claim C6: a wildcard-free search on the
concrete store routes to the search branch, and the ILIKE filter equals
substring containment there. -/
theorem listPosts_routing_witness :
    (PostRepository.ListPosts stateWild ⟨1, 20, none, none, some "xb"⟩).1 = [pWild] ∧
    ilikeContains "xb" "aXb" = containsSub (lowerStr "xb") (lowerStr "aXb") ∧
    ilikeContains "xb" "aXb" = true := by
  have h := listPosts_routing stateWild ⟨1, 20, none, none, some "xb"⟩
  refine ⟨?_, h.2.2.2.2 "xb" "aXb" rfl, rfl⟩
  rw [h.1 rfl]
  rfl

end NewsFeed
